import Mathlib

/-!
Verification of the dataone-indexer core pipeline (src/main.go) against its
specification: the decode → scope-filter → classify → record dispatch loop.

The `model` and `database` packages of the repository are not under src/;
only their callers are.  Their behavior (`model.Decode`, the action
classifier, `database.Recorder.RecordEvent`) is modelled from the spec, as
marked on each definition.  Everything else is a direct shallow embedding of
`processMessages` and its helpers in src/main.go.
-/

namespace DataoneIndexer

/-- An event decoded from an AMQP message payload.  `path` is the absolute
path of the filesystem object the notification concerns; `extra` stands for
the pass-through payload fields that the pipeline does not interpret. -/
structure Event where
  path : String
  extra : List String
  deriving DecidableEq

/-- The Go zero value of the Event/Message type: every field zero. -/
def Event.zero : Event := ⟨"", []⟩

/-- Modelled from the spec: the `model` package is not under src/.  A raw
message payload (Go bytes) is abstracted by whether it is a valid
serialization of an Event: spec §4.1 says a payload either decodes to a full
Event or fails with a DecodeError producing no partial Event. -/
inductive Payload where
  | wellFormed (e : Event)
  | malformed (raw : String)
  deriving DecidableEq

/-- Modelled from the spec: `model.Decode` (src/ contains only its caller).
Mirrors the Go pair result `(msg, err)` as (event, success flag): a
well-formed payload yields its Event with success; a malformed payload fails,
and since the spec says decode failures include no partial Event, the Go
caller is left holding the zero value of the message type. -/
def Decode : Payload → Event × Bool
  | .wellFormed e => (e, true)
  | .malformed _ => (Event.zero, false)

/-- One AMQP delivery, restricted to the fields `processMessages` reads:
`delivery.RoutingKey` and `delivery.Body`. -/
structure Delivery where
  routingKey : String
  body : Payload
  deriving DecidableEq

/-- The configuration values the pipeline consumes (src/main.go:157-163):
`dataone.repository-root`, `amqp.routing-key.read`, `dataone.node-id`. -/
structure Config where
  rootDir : String
  readKey : String
  nodeId : String
  deriving DecidableEq

/-- Semantic event kinds distinguished by the recorder (spec §4.3). -/
inductive EventKind where
  | read
  | generic
  deriving DecidableEq

/-- Modelled from the spec: the action classifier inside the `database`
package (src/main.go:127-131 only builds its `KeyNames` configuration with
the single distinguished read key): `Read` if the routing key equals the
configured read key, else the generic kind. -/
def classify (routingKey configuredReadKey : String) : EventKind :=
  if routingKey = configuredReadKey then .read else .generic

/-- A persisted event row (spec §3): the Event's fields combined with the
resolved kind and the configured node identity. -/
structure RecordedEvent where
  path : String
  kind : EventKind
  nodeId : String
  extra : List String
  deriving DecidableEq

/-- Oracle for the outcomes of successive persistence attempts: the head is
the next write's success flag; an exhausted oracle means every later write
succeeds. -/
abbrev Store := List Bool

/-- Modelled from the spec: `database.Recorder.RecordEvent` (the `database`
package is not under src/).  Resolves the event kind via the classifier,
then performs a single durable-write attempt whose success is drawn from the
store oracle: on success exactly one row is persisted, on failure none, and
there is no internal retry. -/
def RecordEvent (cfg : Config) (store : Store) (key : String) (e : Event) :
    Store × Bool × List RecordedEvent :=
  let row : RecordedEvent := ⟨e.path, classify key cfg.readKey, cfg.nodeId, e.extra⟩
  match store with
  | [] => ([], true, [row])
  | b :: rest => (rest, b, if b then [row] else [])

/-- Observable per-delivery effects of the dispatch loop, in order of
occurrence.  The two log effects carry the offending raw payload, as the
Errorf calls at src/main.go:172 and src/main.go:176 do. -/
inductive Effect where
  | logDecodeFailure (body : Payload)
  | recordCall (key : String) (event : Event)
  | logRecordFailure (body : Payload)
  deriving DecidableEq

/-- Index of the first occurrence of `sub` in `s`, or -1 when there is none:
the semantics of Go `strings.Index` restricted to character sequences. -/
def goIndexAux (sub : List Char) : List Char → Int
  | [] => if sub.isPrefixOf [] then 0 else -1
  | c :: t =>
    if sub.isPrefixOf (c :: t) then 0
    else if goIndexAux sub t = -1 then -1 else goIndexAux sub t + 1

/-- Go `strings.Index(s, sub)`. -/
def goStringsIndex (s sub : String) : Int := goIndexAux sub.data s.data

/-- The scope test exactly as written at src/main.go:174:
`strings.Index(msg.Path, svc.rootDir) == 0`. -/
def inScope (rootPath : String) (e : Event) : Bool :=
  goStringsIndex e.path rootPath == 0

/-- One iteration of the dispatch-loop body (src/main.go:168-178) on a single
delivery: read the routing key, decode the body, log a decode failure, apply
the scope test to the message value returned by Decode, invoke the recorder
when the test passes, log a record failure.  Returns the effects emitted, the
rows persisted and the updated store oracle.  Note that the Go body has no
`continue` after a failed decode, so the scope test runs on the zero-value
message. -/
def step (cfg : Config) (store : Store) (d : Delivery) :
    List Effect × List RecordedEvent × Store :=
  let key := d.routingKey
  let dec := Decode d.body
  let msg := dec.1
  let decodeLog : List Effect := if dec.2 then [] else [.logDecodeFailure d.body]
  if inScope cfg.rootDir msg then
    let res := RecordEvent cfg store key msg
    let recLog : List Effect := if res.2.1 then [] else [.logRecordFailure d.body]
    (decodeLog ++ [.recordCall key msg] ++ recLog, res.2.2, res.1)
  else
    (decodeLog, [], store)

/-- The dispatch loop `processMessages` (src/main.go:167-180): run the step
on each delivery of the finite stream in order, concatenating effects and
persisted rows.  The recursion ends exactly when the delivery stream is
exhausted, i.e. when the upstream channel closes. -/
def processMessages (cfg : Config) (store : Store) :
    List Delivery → List Effect × List RecordedEvent
  | [] => ([], [])
  | d :: ds =>
    let s := step cfg store d
    let rest := processMessages cfg s.2.2 ds
    (s.1 ++ rest.1, s.2.1 ++ rest.2)

/-- The store-oracle state left after the loop has consumed the given
deliveries. -/
def finalStore (cfg : Config) (store : Store) : List Delivery → Store
  | [] => store
  | d :: ds => finalStore cfg (step cfg store d).2.2 ds

/-- The recorder invocations appearing in a trace, in order. -/
def recordCalls (t : List Effect) : List (String × Event) :=
  t.filterMap fun eff =>
    match eff with
    | .recordCall k m => some (k, m)
    | _ => none

/-- The routing key and decoded message of every delivery whose decoded
message passes the scope test, in delivery order. -/
def scopedCalls (cfg : Config) (ds : List Delivery) : List (String × Event) :=
  ds.filterMap fun d =>
    if inScope cfg.rootDir (Decode d.body).1 then
      some (d.routingKey, (Decode d.body).1)
    else none

end DataoneIndexer

namespace DataoneIndexer

/-- A position returned by the Go index scan is zero exactly when the needle
is a literal leading run of the haystack. -/
theorem goIndexAux_eq_zero (sub s : List Char) :
    goIndexAux sub s = 0 ↔ sub.isPrefixOf s = true := by
  cases s with
  | nil =>
    by_cases h : sub.isPrefixOf ([] : List Char) = true
    · simp [goIndexAux, h]
    · simp [goIndexAux, h]
  | cons c t =>
    by_cases h : sub.isPrefixOf (c :: t) = true
    · simp [goIndexAux, h]
    · simp only [goIndexAux, h, if_false, Bool.false_eq_true]
      constructor
      · intro hc
        by_cases hr : goIndexAux sub t = -1
        · simp [hr] at hc
        · simp [hr] at hc
          omega
      · intro hc
        exact absurd hc (by simp [h])

/-- The scope test of src/main.go:174 holds exactly when the configured root
is a literal leading character run of the event path. -/
theorem inScope_iff_leading (root : String) (e : Event) :
    inScope root e = true ↔ root.data <+: e.path.data := by
  simp [inScope, goStringsIndex, beq_iff_eq, goIndexAux_eq_zero,
    List.isPrefixOf_iff_prefix]

/-- Recorder invocations of a concatenated trace split accordingly. -/
theorem recordCalls_append (a b : List Effect) :
    recordCalls (a ++ b) = recordCalls a ++ recordCalls b := by
  simp [recordCalls, List.filterMap_append]

/-- One loop iteration invokes the recorder exactly on the decoded message
when it passes the scope test, with the delivery's routing key, and not at
all otherwise. -/
theorem recordCalls_step (cfg : Config) (store : Store) (d : Delivery) :
    recordCalls (step cfg store d).1 =
      if inScope cfg.rootDir (Decode d.body).1 then
        [(d.routingKey, (Decode d.body).1)] else [] := by
  simp only [step]
  split
  · next h =>
    simp only [h, if_true]
    cases hdec : (Decode d.body).2 <;>
      cases hres : (RecordEvent cfg store d.routingKey (Decode d.body).1).2.1 <;>
        simp [hdec, hres, recordCalls_append, recordCalls]
  · next h =>
    simp only [Bool.not_eq_true] at h
    simp only [h, Bool.false_eq_true, if_false]
    cases hdec : (Decode d.body).2 <;> simp [recordCalls]

/-- The recorder invocations of a whole run are the in-scope decoded messages
of the delivery stream, in delivery order, independent of write outcomes. -/
theorem recordCalls_processMessages (cfg : Config) (store : Store) (ds : List Delivery) :
    recordCalls (processMessages cfg store ds).1 = scopedCalls cfg ds := by
  induction ds generalizing store with
  | nil => simp [processMessages, scopedCalls, recordCalls]
  | cons d ds ih =>
    simp only [processMessages, scopedCalls, List.filterMap_cons]
    rw [recordCalls_append, recordCalls_step, ih]
    cases h : inScope cfg.rootDir (Decode d.body).1 <;> simp [h, scopedCalls]

/-- Running the loop on a concatenated stream is running it on the first part
and then, from the resulting store state, on the second: no per-message
outcome ends the iteration early. -/
theorem processMessages_append (cfg : Config) (store : Store) (ds₁ ds₂ : List Delivery) :
    processMessages cfg store (ds₁ ++ ds₂) =
      ((processMessages cfg store ds₁).1 ++
        (processMessages cfg (finalStore cfg store ds₁) ds₂).1,
       (processMessages cfg store ds₁).2 ++
        (processMessages cfg (finalStore cfg store ds₁) ds₂).2) := by
  induction ds₁ generalizing store with
  | nil => simp [processMessages, finalStore]
  | cons d t ih => simp [processMessages, finalStore, ih]

/-- A persistence attempt yields exactly one row on success and none on
failure. -/
theorem RecordEvent_rows (cfg : Config) (store : Store) (k : String) (e : Event) :
    (RecordEvent cfg store k e).2.2 =
      if (RecordEvent cfg store k e).2.1 then
        [⟨e.path, classify k cfg.readKey, cfg.nodeId, e.extra⟩] else [] := by
  cases store <;> simp [RecordEvent]

/-- Claim C1: the claim says a delivery whose payload fails to decode is
logged and skipped without inspecting the failed Event, without running the
scope filter or the recorder, and with zero recorded events.  The code
(src/main.go:171-178) has no continue after the failed decode: evaluated at
an empty configured root with a malformed payload, the loop applies the
scope test to the zero-value message, invokes the recorder with it, and
records one event. -/
theorem c1_decode_failure_reaches_recorder :
    (Decode (Payload.malformed "garbage")).2 = false ∧
      processMessages ⟨"", "data-object.open", "node"⟩ []
          [⟨"key", Payload.malformed "garbage"⟩] =
        ([.logDecodeFailure (.malformed "garbage"), .recordCall "key" ⟨"", []⟩],
         [⟨"", .generic, "node", []⟩]) := by
  decide

/-- Claim C2: the scope test succeeds iff the event path has the root as a
literal leading character run, case-sensitively with no normalization; in
particular both /a/b/c and /a/bc pass under root /a/b while /a/x does not. -/
theorem c2_scope_is_literal_leading_test :
    (∀ (root : String) (e : Event), inScope root e = true ↔ root.data <+: e.path.data) ∧
      inScope "/a/b" ⟨"/a/b/c", []⟩ = true ∧
      inScope "/a/b" ⟨"/a/bc", []⟩ = true ∧
      inScope "/a/b" ⟨"/a/x", []⟩ = false :=
  ⟨inScope_iff_leading, by decide, by decide, by decide⟩

/-- Claim C3, counterexample: with an empty configured root, an event whose
path is the empty string is handed to the Recorder, refuting the claim that
an Event reaching the Recorder always has a non-empty path. -/
theorem c3_empty_root_empty_path_recorded :
    Effect.recordCall "key" ⟨"", []⟩ ∈
        (processMessages ⟨"", "rk", "node"⟩ [] [⟨"key", .wellFormed ⟨"", []⟩⟩]).1 ∧
      (Event.mk "" []).path = "" := by
  decide

/-- Claim C3, amended: an Event is handed to the Recorder only if its path
lexically begins with the configured repository root; whenever the
configured root is non-empty, such a path is in particular non-empty. -/
theorem c3_recorded_events_begin_with_root (cfg : Config) (store : Store)
    (ds : List Delivery) (k : String) (e : Event)
    (h : Effect.recordCall k e ∈ (processMessages cfg store ds).1) :
    inScope cfg.rootDir e = true ∧ (cfg.rootDir ≠ "" → e.path ≠ "") := by
  have hmem : (k, e) ∈ recordCalls (processMessages cfg store ds).1 := by
    simp only [recordCalls, List.mem_filterMap]
    exact ⟨.recordCall k e, h, rfl⟩
  rw [recordCalls_processMessages] at hmem
  simp only [scopedCalls, List.mem_filterMap] at hmem
  obtain ⟨d, hd, hcall⟩ := hmem
  have hscope : inScope cfg.rootDir e = true := by
    by_cases hc : inScope cfg.rootDir (Decode d.body).1 = true
    · simp only [hc, if_true, Option.some.injEq, Prod.mk.injEq] at hcall
      rw [← hcall.2]
      exact hc
    · simp [hc] at hcall
  refine ⟨hscope, ?_⟩
  intro hr hp
  apply hr
  have hpre := (inScope_iff_leading cfg.rootDir e).1 hscope
  rw [hp] at hpre
  have hnil : cfg.rootDir.data = [] := by simpa using hpre
  exact String.ext (by simp [hnil])

/-- Witness for the amended claim C3 at a concrete recorded delivery. -/
theorem c3_recorded_events_begin_with_root_witness :
    Effect.recordCall "k" ⟨"/a/b", []⟩ ∈
        (processMessages ⟨"/a", "rk", "n"⟩ [] [⟨"k", .wellFormed ⟨"/a/b", []⟩⟩]).1 ∧
      (inScope "/a" ⟨"/a/b", []⟩ = true ∧ (("/a" : String) ≠ "" → ("/a/b" : String) ≠ "")) :=
  ⟨by decide,
    c3_recorded_events_begin_with_root ⟨"/a", "rk", "n"⟩ []
      [⟨"k", .wellFormed ⟨"/a/b", []⟩⟩] "k" ⟨"/a/b", []⟩ (by decide)⟩

/-- Claim C4: a delivery that decodes successfully but whose event path does
not begin with the configured root is silently dropped: the run on it is
indistinguishable from the run without it, so it contributes no recorder
invocation, no recorded event and no log entry, and the loop continues. -/
theorem c4_out_of_scope_silently_dropped (cfg : Config) (store : Store)
    (d : Delivery) (ds : List Delivery)
    (hok : (Decode d.body).2 = true)
    (hscope : inScope cfg.rootDir (Decode d.body).1 = false) :
    processMessages cfg store (d :: ds) = processMessages cfg store ds := by
  simp [processMessages, step, hok, hscope]

/-- Witness for claim C4 at the spec's scenario path under a shared root. -/
theorem c4_out_of_scope_silently_dropped_witness :
    (Decode (Payload.wellFormed ⟨"/iplant/home/other/x.txt", []⟩)).2 = true ∧
      inScope "/iplant/home/shared" ⟨"/iplant/home/other/x.txt", []⟩ = false ∧
      processMessages ⟨"/iplant/home/shared", "rk", "n"⟩ []
          [⟨"k", .wellFormed ⟨"/iplant/home/other/x.txt", []⟩⟩] =
        processMessages ⟨"/iplant/home/shared", "rk", "n"⟩ [] [] :=
  ⟨rfl, by decide,
    c4_out_of_scope_silently_dropped ⟨"/iplant/home/shared", "rk", "n"⟩ []
      ⟨"k", .wellFormed ⟨"/iplant/home/other/x.txt", []⟩⟩ [] rfl (by decide)⟩

/-- Claim C5: for an in-scope, successfully decoded delivery whose
persistence attempt fails, the loop emits exactly one recorder invocation
followed by exactly one record-failure log carrying the offending payload,
persists nothing for that delivery, and continues with the remaining
deliveries; no retry happens. -/
theorem c5_record_failure_logged_once_loop_continues (cfg : Config) (store : Store)
    (d : Delivery) (ds : List Delivery)
    (hok : (Decode d.body).2 = true)
    (hscope : inScope cfg.rootDir (Decode d.body).1 = true)
    (hfail : (RecordEvent cfg store d.routingKey (Decode d.body).1).2.1 = false) :
    processMessages cfg store (d :: ds) =
      (Effect.recordCall d.routingKey (Decode d.body).1 ::
        Effect.logRecordFailure d.body ::
          (processMessages cfg (RecordEvent cfg store d.routingKey (Decode d.body).1).1 ds).1,
       (processMessages cfg (RecordEvent cfg store d.routingKey (Decode d.body).1).1 ds).2) := by
  have hrows := RecordEvent_rows cfg store d.routingKey (Decode d.body).1
  rw [hfail] at hrows
  simp only [Bool.false_eq_true, if_false] at hrows
  simp [processMessages, step, hok, hscope, hfail, hrows]

/-- Witness for claim C5 at a concrete failing write. -/
theorem c5_record_failure_logged_once_loop_continues_witness :
    (Decode (Payload.wellFormed ⟨"/a/b", []⟩)).2 = true ∧
      inScope "/a" ⟨"/a/b", []⟩ = true ∧
      (RecordEvent ⟨"/a", "rk", "n"⟩ [false] "k" ⟨"/a/b", []⟩).2.1 = false ∧
      processMessages ⟨"/a", "rk", "n"⟩ [false] [⟨"k", .wellFormed ⟨"/a/b", []⟩⟩] =
        (Effect.recordCall "k" ⟨"/a/b", []⟩ ::
          Effect.logRecordFailure (.wellFormed ⟨"/a/b", []⟩) ::
            (processMessages ⟨"/a", "rk", "n"⟩
              (RecordEvent ⟨"/a", "rk", "n"⟩ [false] "k" ⟨"/a/b", []⟩).1 []).1,
         (processMessages ⟨"/a", "rk", "n"⟩
            (RecordEvent ⟨"/a", "rk", "n"⟩ [false] "k" ⟨"/a/b", []⟩).1 []).2) :=
  ⟨rfl, by decide, rfl,
    c5_record_failure_logged_once_loop_continues ⟨"/a", "rk", "n"⟩ [false]
      ⟨"k", .wellFormed ⟨"/a/b", []⟩⟩ [] rfl (by decide) rfl⟩

/-- Claim C6: recorder invocations happen strictly sequentially in exactly
delivery order: the invocation sequence of any run equals the in-order
selection of in-scope decoded deliveries, with no reordering or batching. -/
theorem c6_recorder_calls_in_delivery_order :
    ∀ (cfg : Config) (store : Store) (ds : List Delivery),
      recordCalls (processMessages cfg store ds).1 = scopedCalls cfg ds :=
  recordCalls_processMessages

/-- Claim C7: the loop processes every delivery of the stream and returns
exactly when the stream is exhausted: a run on any concatenation is the run
on the first part followed by the run on the rest from the reached store
state — no per-message outcome terminates iteration — and the run on the
closed (empty) stream returns at once. -/
theorem c7_loop_processes_entire_stream :
    (∀ (cfg : Config) (store : Store) (ds₁ ds₂ : List Delivery),
      processMessages cfg store (ds₁ ++ ds₂) =
        ((processMessages cfg store ds₁).1 ++
          (processMessages cfg (finalStore cfg store ds₁) ds₂).1,
         (processMessages cfg store ds₁).2 ++
          (processMessages cfg (finalStore cfg store ds₁) ds₂).2)) ∧
      ∀ (cfg : Config) (store : Store),
        processMessages cfg store ([] : List Delivery) = ([], []) :=
  ⟨processMessages_append, fun _ _ => rfl⟩

/-- Claim C8: the action classifier returns the Read kind iff the routing
key equals the configured read key, and the generic kind otherwise,
including for the empty string; being a total function it is deterministic
with no failure mode. -/
theorem c8_classifier_read_iff_configured_key (k ck : String) :
    (classify k ck = EventKind.read ↔ k = ck) ∧
      (classify k ck = EventKind.generic ↔ ¬k = ck) := by
  by_cases h : k = ck <;> simp [classify, h]

/-- Claim C9: with an empty configured repository root the scope test passes
for every event, including one with an empty path, so every successfully
decoded delivery of the stream is handed to the Recorder. -/
theorem c9_empty_root_passes_everything (cfg : Config) (store : Store)
    (ds : List Delivery) (d : Delivery)
    (hroot : cfg.rootDir = "") (_hok : (Decode d.body).2 = true) (hmem : d ∈ ds) :
    (∀ ev : Event, inScope cfg.rootDir ev = true) ∧
      (d.routingKey, (Decode d.body).1) ∈ recordCalls (processMessages cfg store ds).1 := by
  have hall : ∀ ev : Event, inScope cfg.rootDir ev = true := by
    intro ev
    rw [inScope_iff_leading, hroot]
    simp
  refine ⟨hall, ?_⟩
  rw [recordCalls_processMessages]
  simp only [scopedCalls, List.mem_filterMap]
  exact ⟨d, hmem, by simp [hall]⟩

/-- Witness for claim C9 at an empty root and an event with an empty path. -/
theorem c9_empty_root_passes_everything_witness :
    ((⟨"", "rk", "n"⟩ : Config).rootDir = "" ∧
        (Decode (Payload.wellFormed ⟨"", []⟩)).2 = true) ∧
      ((∀ ev : Event, inScope "" ev = true) ∧
        ("k", (⟨"", []⟩ : Event)) ∈
          recordCalls (processMessages ⟨"", "rk", "n"⟩ []
            [⟨"k", .wellFormed ⟨"", []⟩⟩]).1) :=
  ⟨⟨rfl, rfl⟩,
    c9_empty_root_passes_everything ⟨"", "rk", "n"⟩ [] [⟨"k", .wellFormed ⟨"", []⟩⟩]
      ⟨"k", .wellFormed ⟨"", []⟩⟩ rfl rfl (by decide)⟩

/-- Claim C10: wherever a delivery sits in the stream, it contributes at
most one recorder invocation, and that invocation carries the delivery's
routing key and the decoder's message value unmodified. -/
theorem c10_single_delivery_at_most_one_unmodified_call :
    ∀ (cfg : Config) (store : Store) (pre : List Delivery) (d : Delivery)
      (post : List Delivery),
      recordCalls (processMessages cfg store (pre ++ d :: post)).1 =
        recordCalls (processMessages cfg store pre).1 ++
          (if inScope cfg.rootDir (Decode d.body).1 then
            [(d.routingKey, (Decode d.body).1)] else []) ++
          recordCalls (processMessages cfg (finalStore cfg store (pre ++ [d])) post).1 := by
  intro cfg store pre d post
  simp only [recordCalls_processMessages, scopedCalls, List.filterMap_append,
    List.filterMap_cons]
  cases h : inScope cfg.rootDir (Decode d.body).1 <;> simp [h]

end DataoneIndexer
